import Mathlib

/-!
Verification of the Canal View solver (canal.py + canalverify.py).

The puzzle grid, the Z3 constraint encoding built by `add_constraints`,
the model decoding of `evaluate_model`, the enumeration loop of
`solve_and_print`, and the independent checker `verify` are embedded
shallowly below.  Boolean Z3 terms become `Bool` values of an assignment,
the integer clue terms become `Int`, and the fallible Python code
(`verify`, which raises `ValueError` / `TypeError`) returns `Except`.

Grid cells: `canalinputs.get_grid` is not part of the sources, so the
cell representation is modelled from the spec (section 3 / section 6):
a cell is either the distinct no-clue marker (`None` in canal.py), the
distinct wildcard marker (the string `'?'` in canal.py), or an exact
integer clue.  `canal.py` tests `grid[i][j] is not None` and
`grid[i][j] != '?'`, which map exactly onto these three variants;
`canalverify.py` compares the cell with integers (`clue > -2`,
`clue >= 0`), which is a Python `TypeError` on the two non-integer
markers, modelled by the `typeErr` outcome.
-/

namespace CanalView

/-- Grid cell, modelled from the spec: no-clue marker (`None`), wildcard
marker (`'?'`), or an exact integer clue. -/
inductive Cell where
  | noClue : Cell
  | wild : Cell
  | num : Int → Cell
deriving DecidableEq

/-- An assignment to the solver variables of one grid:
`C i j` (true = unshaded), the horizontal edge pair `H0/H1` (Python
`H[i][j][0]` / `H[i][j][1]`), the vertical edge pair `V0/V1`
(`V[i][j][0]` / `V[i][j][1]`), the parity bits `P` and the root bits `R`. -/
structure Asg where
  C : Nat → Nat → Bool
  H0 : Nat → Nat → Bool
  H1 : Nat → Nat → Bool
  V0 : Nat → Nat → Bool
  V1 : Nat → Nat → Bool
  P : Nat → Nat → Bool
  R : Nat → Nat → Bool

/-- Row-major list of the in-range cells, mirroring the nested
`for i in range(nrow): for j in range(ncol)` loops. -/
def allCells (nrow ncol : Nat) : List (Nat × Nat) :=
  (List.range nrow).flatMap (fun i => (List.range ncol).map (fun j => (i, j)))

/-- Python `absent_edge(H[i][j])`: `And(Not(a[0]), Not(a[1]))`. -/
def absentH (a : Asg) (i j : Nat) : Bool := !(a.H0 i j) && !(a.H1 i j)

/-- Python `absent_edge(V[i][j])`. -/
def absentV (a : Asg) (i j : Nat) : Bool := !(a.V0 i j) && !(a.V1 i j)

/-- Python `legal_edge(H[i][j])`: `Or(Not(a[0]), Not(a[1]))`. -/
def legalH (a : Asg) (i j : Nat) : Bool := !(a.H0 i j) || !(a.H1 i j)

/-- Python `legal_edge(V[i][j])`. -/
def legalV (a : Asg) (i j : Nat) : Bool := !(a.V0 i j) || !(a.V1 i j)

/-- Value of the encoder's `numLeft` term under an assignment.  The source
loop walks `y = j, j-1, ..., 1`, reading `C[i][y-1]`, accumulating
`numLeft + If(And(Not(C), Not(blocked)), 1, 0)` and
`blocked = Or(blocked, C[i][y-1])`. -/
def encNumLeft (C : Nat → Nat → Bool) (i : Nat) : Nat → Int → Bool → Int
  | 0, acc, _ => acc
  | y + 1, acc, blocked =>
      encNumLeft C i y (acc + (if !(C i y) && !blocked then 1 else 0)) (blocked || C i y)

/-- Value of the encoder's `numRight` term: the loop runs while
`y < ncol - 1`, reading `C[i][y+1]`, with
`numRight = If(And(Not(C), Not(blocked)), numRight + 1, numRight)`;
the fuel argument is the iteration count `ncol - 1 - j`. -/
def encNumRight (C : Nat → Nat → Bool) (i : Nat) : Nat → Nat → Int → Bool → Int
  | 0, _, acc, _ => acc
  | f + 1, y, acc, blocked =>
      encNumRight C i f (y + 1) (if !(C i (y + 1)) && !blocked then acc + 1 else acc)
        (blocked || C i (y + 1))

/-- Value of the encoder's `numUp` term: the loop walks `x = i, ..., 1`,
reading `C[x-1][j]`. -/
def encNumUp (C : Nat → Nat → Bool) (j : Nat) : Nat → Int → Bool → Int
  | 0, acc, _ => acc
  | x + 1, acc, blocked =>
      encNumUp C j x (if !(C x j) && !blocked then acc + 1 else acc) (blocked || C x j)

/-- Value of the encoder's `numDown` term: the loop runs while
`x < nrow - 1`, reading `C[x+1][j]`; fuel is `nrow - 1 - i`. -/
def encNumDown (C : Nat → Nat → Bool) (j : Nat) : Nat → Nat → Int → Bool → Int
  | 0, _, acc, _ => acc
  | f + 1, x, acc, blocked =>
      encNumDown C j f (x + 1) (if !(C (x + 1) j) && !blocked then acc + 1 else acc)
        (blocked || C (x + 1) j)

/-- Value of the encoder's line-of-sight sum
`numLeft + numRight + numUp + numDown` for the clue cell `(i, j)`. -/
def encCount (nrow ncol : Nat) (C : Nat → Nat → Bool) (i j : Nat) : Int :=
  encNumLeft C i j 0 false + encNumRight C i (ncol - 1 - j) j 0 false +
    encNumUp C j i 0 false + encNumDown C j (nrow - 1 - i) i 0 false

/-- Weighted sum of the four edge booleans of a cell: the value of
`PbEq([(H[i][j][0],1),(H[i][j][1],1),(V[i][j][0],1),(V[i][j][1],1)], 1)`
is `countArrows = 1`. -/
def countArrows (a : Asg) (i j : Nat) : Nat :=
  (if a.H0 i j then 1 else 0) + (if a.H1 i j then 1 else 0) +
    (if a.V0 i j then 1 else 0) + (if a.V1 i j then 1 else 0)

/-- Clue constraints of one cell (canal.py lines 141-175): a cell with a
clue is forced unshaded (`And(C[i][j], True)`), and a numeric clue
additionally asserts `clue == numLeft + numRight + numUp + numDown`. -/
def clueC (nrow ncol : Nat) (grid : Nat → Nat → Cell) (a : Asg) (i j : Nat) : Bool :=
  match grid i j with
  | Cell.noClue => true
  | Cell.wild => a.C i j
  | Cell.num n => a.C i j && (n == encCount nrow ncol (fun x y => a.C x y) i j)

/-- All constraints `add_constraints` asserts for the cell `(i, j)`, in
source order: clue constraints, root implications, edge legality, the
2x2 rule, the exactly-one-arrow rule for shaded non-root cells, the
mutual/bounds/shaded-target arrow rules, and the six parity blocks. -/
def cellCs (nrow ncol : Nat) (grid : Nat → Nat → Cell) (a : Asg) (i j : Nat) : Bool :=
  clueC nrow ncol grid a i j &&
  (!(a.R i j) || !(a.C i j)) &&
  (!(a.R i j) || (absentH a i j && absentV a i j)) &&
  (legalH a i j && legalV a i j) &&
  (if i < nrow - 1 && j < ncol - 1 then
      !(!(a.C i j) && !(a.C (i + 1) j) && !(a.C i (j + 1)) && !(a.C (i + 1) (j + 1)))
    else true) &&
  (!(!(a.C i j) && !(a.R i j)) || (countArrows a i j == 1)) &&
  (if 0 < j then
      (!(a.H0 i j) || !(a.H1 i (j - 1))) &&
      (!(!(a.C i j) && a.H0 i j) || !(a.C i (j - 1)))
    else !(a.H0 i j)) &&
  (if j < ncol - 1 then
      (!(a.H1 i j) || !(a.H0 i (j + 1))) &&
      (!(!(a.C i j) && a.H1 i j) || !(a.C i (j + 1)))
    else !(a.H1 i j)) &&
  (if 0 < i then
      (!(a.V1 i j) || !(a.V0 (i - 1) j)) &&
      (!(!(a.C i j) && a.V1 i j) || !(a.C (i - 1) j))
    else !(a.V1 i j)) &&
  (if i < nrow - 1 then
      (!(a.V0 i j) || !(a.V1 (i + 1) j)) &&
      (!(!(a.C i j) && a.V0 i j) || !(a.C (i + 1) j))
    else !(a.V0 i j)) &&
  (if 0 < j && j < ncol - 1 then
      (!(a.H1 i (j - 1) && a.H1 i j) || (a.P i (j - 1) == a.P i j)) &&
      (!(a.H0 i (j + 1) && a.H0 i j) || (a.P i (j + 1) == a.P i j))
    else true) &&
  (if 0 < i && i < nrow - 1 then
      (!(a.V0 (i - 1) j && a.V0 i j) || (a.P (i - 1) j == a.P i j)) &&
      (!(a.V1 (i + 1) j && a.V1 i j) || (a.P (i + 1) j == a.P i j))
    else true) &&
  (if j < ncol - 1 && 0 < i then
      (!(a.H0 i (j + 1) && a.V1 i j) || (a.P i (j + 1) == a.P i j)) &&
      (!(a.V0 (i - 1) j && a.H1 i j) || (a.P (i - 1) j == a.P i j))
    else true) &&
  (if i < nrow - 1 && 0 < j then
      (!(a.V1 (i + 1) j && a.H0 i j) || (a.P (i + 1) j == a.P i j)) &&
      (!(a.H1 i (j - 1) && a.V0 i j) || (a.P i (j - 1) == a.P i j))
    else true) &&
  (if 0 < i && 0 < j then
      (!(a.V0 (i - 1) j && a.H0 i j) || (a.P (i - 1) j == a.P i j)) &&
      (!(a.H1 i (j - 1) && a.V1 i j) || (a.P i (j - 1) != a.P i j))
    else true) &&
  (if j < ncol - 1 && i < nrow - 1 then
      (!(a.H0 i (j + 1) && a.V0 i j) || (a.P i (j + 1) == a.P i j)) &&
      (!(a.V1 (i + 1) j && a.H1 i j) || (a.P (i + 1) j != a.P i j))
    else true)

/-- The global root constraint (canal.py line 135):
`PbEq([(R[i][j], 1) ...], 1)`, i.e. exactly one root bit is set. -/
def rootPb (nrow ncol : Nat) (a : Asg) : Bool :=
  ((allCells nrow ncol).filter (fun p => a.R p.1 p.2)).length == 1

/-- The full constraint set built by `add_constraints(grid, slv, ...)`. -/
def constraintsHold (nrow ncol : Nat) (grid : Nat → Nat → Cell) (a : Asg) : Bool :=
  rootPb nrow ncol a &&
    (List.range nrow).all (fun i => (List.range ncol).all (fun j => cellCs nrow ncol grid a i j))

/-- The shading matrix `Cbool` extracted by `evaluate_model`. -/
def decodeC (nrow ncol : Nat) (a : Asg) : List (List Bool) :=
  (List.range nrow).map (fun i => (List.range ncol).map (fun j => a.C i j))

/-- Arrow decoding of `evaluate_model` for one cell: checks, in order,
both axes absent, vertical up, vertical down, horizontal right,
horizontal left, and otherwise the unexpected marker. -/
def decodeArrow (a : Asg) (i j : Nat) : Char :=
  if absentH a i j && absentV a i j then ' '
  else if a.V1 i j && absentH a i j then '^'
  else if a.V0 i j && absentH a i j then 'v'
  else if a.H1 i j && absentV a i j then '>'
  else if a.H0 i j && absentV a i j then '<'
  else '?'

/-- Spec invariant 6: no axis edge pair is `(true, true)`. -/
def inv6 (nrow ncol : Nat) (a : Asg) : Bool :=
  (allCells nrow ncol).all (fun p =>
    !(a.H0 p.1 p.2 && a.H1 p.1 p.2) && !(a.V0 p.1 p.2 && a.V1 p.1 p.2))

/-- Spec invariant 7: every shaded non-root cell has exactly one of its
four edge booleans set. -/
def inv7 (nrow ncol : Nat) (a : Asg) : Bool :=
  (allCells nrow ncol).all (fun p =>
    !(!(a.C p.1 p.2) && !(a.R p.1 p.2)) || (countArrows a p.1 p.2 == 1))

/-- Errors raised by `canalverify.verify` and its helpers.  The first
five correspond to the `ValueError`s of the source (2x2 window, shaded
clue cell, visible-count mismatch, missing shaded square, unreached
cells); `typeErr` models the Python `TypeError` raised by the comparison
`clue > -2` when the cell holds the no-clue or wildcard marker instead
of an integer. -/
inductive VError where
  | shaded2x2 : Nat → Nat → VError
  | shadedClue : Nat → Nat → VError
  | countMismatch : Nat → Nat → Int → Int → VError
  | noShadedSquare : VError
  | unreached : Nat → Nat → VError
  | typeErr : VError
deriving DecidableEq

/-- Which errors belong to the verifier's four explicit rule-violation
checks (2x2 window, shaded clue cell, clue-count mismatch, unreached
shaded cells). -/
def isRuleViolation : VError → Bool
  | VError.shaded2x2 _ _ => true
  | VError.shadedClue _ _ => true
  | VError.countMismatch _ _ _ _ => true
  | VError.unreached _ _ => true
  | _ => false

/-- Upward scan of `visible_canal`: `for k in range(i-1, -1, -1)`,
counting `not C[k][j]` until the first unshaded cell breaks the loop. -/
def visUp (C : Nat → Nat → Bool) (j : Nat) : Nat → Int
  | 0 => 0
  | k + 1 => if !(C k j) then 1 + visUp C j k else 0

/-- Downward scan of `visible_canal`: `for k in range(i+1, nrow)`; the
fuel argument is the iteration count `nrow - (i+1)`. -/
def visDown (C : Nat → Nat → Bool) (j : Nat) : Nat → Nat → Int
  | 0, _ => 0
  | f + 1, k => if !(C (k + 1) j) then 1 + visDown C j f (k + 1) else 0

/-- Leftward scan of `visible_canal`: `for k in range(j-1, -1, -1)`. -/
def visLeft (C : Nat → Nat → Bool) (i : Nat) : Nat → Int
  | 0 => 0
  | k + 1 => if !(C i k) then 1 + visLeft C i k else 0

/-- Rightward scan of `visible_canal`: `for k in range(j+1, ncol)`; fuel
is `ncol - (j+1)`. -/
def visRight (C : Nat → Nat → Bool) (i : Nat) : Nat → Nat → Int
  | 0, _ => 0
  | f + 1, k => if !(C i (k + 1)) then 1 + visRight C i f (k + 1) else 0

/-- `canalverify.visible_canal(i, j, C)`: total of the four directional
scans, accumulated in source order up, down, left, right. -/
def visible_canal (nrow ncol : Nat) (i j : Nat) (C : Nat → Nat → Bool) : Int :=
  visUp C j i + visDown C j (nrow - (i + 1)) i + visLeft C i j +
    visRight C i (ncol - (j + 1)) j

/-- `canalverify.get_neighbors(current, C)`: in-range shaded neighbours,
in source order up, down, left, right. -/
def get_neighbors (nrow ncol : Nat) (C : Nat → Nat → Bool) (p : Nat × Nat) :
    List (Nat × Nat) :=
  (if 0 < p.1 && !(C (p.1 - 1) p.2) then [(p.1 - 1, p.2)] else []) ++
  (if p.1 < nrow - 1 && !(C (p.1 + 1) p.2) then [(p.1 + 1, p.2)] else []) ++
  (if 0 < p.2 && !(C p.1 (p.2 - 1)) then [(p.1, p.2 - 1)] else []) ++
  (if p.2 < ncol - 1 && !(C p.1 (p.2 + 1)) then [(p.1, p.2 + 1)] else [])

/-- `canalverify.find_first_shaded(C)`: first shaded cell in row-major
order, or the `No shaded square!` error. -/
def find_first_shaded (nrow ncol : Nat) (C : Nat → Nat → Bool) :
    Except VError (Nat × Nat) :=
  match (allCells nrow ncol).find? (fun p => !(C p.1 p.2)) with
  | some p => Except.ok p
  | none => Except.error VError.noShadedSquare

/-- The 2x2 check of `verify`: the first fully shaded window, if any. -/
def check2x2 (nrow ncol : Nat) (C : Nat → Nat → Bool) : Except VError Unit :=
  match (allCells (nrow - 1) (ncol - 1)).find? (fun p =>
      !(C p.1 p.2 || C p.1 (p.2 + 1) || C (p.1 + 1) p.2 || C (p.1 + 1) (p.2 + 1))) with
  | some p => Except.error (VError.shaded2x2 p.1 p.2)
  | none => Except.ok ()

/-- The clue checks of `verify` for one cell.  The source reads
`clue = grid[i][j]` and branches on `clue > -2` and `clue >= 0`: both
comparisons are integer comparisons, so a cell holding the no-clue or
wildcard marker raises a `TypeError` in Python. -/
def clueCheckCell (nrow ncol : Nat) (grid : Nat → Nat → Cell) (C : Nat → Nat → Bool)
    (p : Nat × Nat) : Except VError Unit :=
  match grid p.1 p.2 with
  | Cell.num n =>
      if (-2 : Int) < n then
        if !(C p.1 p.2) then Except.error (VError.shadedClue p.1 p.2)
        else if (0 : Int) ≤ n then
          if visible_canal nrow ncol p.1 p.2 C ≠ n then
            Except.error (VError.countMismatch p.1 p.2 (visible_canal nrow ncol p.1 p.2 C) n)
          else Except.ok ()
        else Except.ok ()
      else Except.ok ()
  | _ => Except.error VError.typeErr

/-- Run an effectful check on every element in order, stopping at the
first error, like a Python loop raising an exception. -/
def forEachE (f : Nat × Nat → Except VError Unit) : List (Nat × Nat) → Except VError Unit
  | [] => Except.ok ()
  | p :: rest => do
      f p
      forEachE f rest

/-- Total number of shaded cells, mirroring the row-by-row
`sum([not C[i][j] for j in range(ncol)])` accumulation. -/
def totalShaded (nrow ncol : Nat) (C : Nat → Nat → Bool) : Nat :=
  ((List.range nrow).map (fun i =>
    ((List.range ncol).filter (fun j => !(C i j))).length)).sum

/-- One step of `verify`'s reachability loop: pop a work cell, add it to
the reached set, push unreached shaded neighbours.  The Python version
works on sets whose pop order is unspecified; this determinisation pops
the head of the work list, and uses fuel for the unbounded `while`. -/
def traverse (nrow ncol : Nat) (C : Nat → Nat → Bool) :
    Nat → List (Nat × Nat) → List (Nat × Nat) → List (Nat × Nat)
  | 0, _, reached => reached
  | _ + 1, [], reached => reached
  | fuel + 1, cur :: rest, reached =>
      let reached' := if cur ∈ reached then reached else cur :: reached
      traverse nrow ncol C fuel
        (((get_neighbors nrow ncol C cur).filter (fun c => !(c ∈ reached' : Bool))) ++ rest)
        reached'

/-- `canalverify.verify(grid, C, allow_weak)`: 2x2 check, per-cell clue
checks, early acceptance of a zero-shaded grid, `find_first_shaded`,
and (unless `allow_weak`) the reachability check. -/
def verify (nrow ncol : Nat) (grid : Nat → Nat → Cell) (C : Nat → Nat → Bool)
    (allow_weak : Bool) : Except VError Unit := do
  check2x2 nrow ncol C
  forEachE (clueCheckCell nrow ncol grid C) (allCells nrow ncol)
  let totalcount := totalShaded nrow ncol C
  if totalcount = 0 then
    pure ()
  else do
    let root ← find_first_shaded nrow ncol C
    if allow_weak then
      pure ()
    else
      let reached := traverse nrow ncol C (4 * nrow * ncol + 1) [root] []
      if reached.length ≠ totalcount then
        Except.error (VError.unreached reached.length totalcount)
      else
        pure ()

/-- Result of one `slv.check()` call of the oracle. -/
inductive CheckResult where
  | sat : Asg → CheckResult
  | unsat : CheckResult
  | unknown : CheckResult

/-- Output lines of `solve_and_print`: the rendered solution handed to
the display layer, the `# Found solution k` line, the `# No solution
found` line and the `# Total solutions found: k` line. -/
inductive Event where
  | printedSolution : List (List Bool) → Event
  | foundLine : Nat → Event
  | noSolutionLine : Event
  | totalLine : Nat → Event
deriving DecidableEq

/-- Outcome of an enumeration run: normal termination with its output,
an uncaught verifier exception after the output so far, or exhausted
fuel (the Python loop is unbounded; theorems supply enough fuel). -/
inductive RunOut where
  | finished : List Event → RunOut
  | crashed : List Event → VError → RunOut
  | fuelOut : List Event → RunOut
deriving DecidableEq

/-- Output emitted by a run, in all outcomes. -/
def RunOut.events : RunOut → List Event
  | RunOut.finished evs => evs
  | RunOut.crashed evs _ => evs
  | RunOut.fuelOut evs => evs

/-- Prepend output that was emitted before the rest of the run. -/
def RunOut.consEvents (pre : List Event) : RunOut → RunOut
  | RunOut.finished evs => RunOut.finished (pre ++ evs)
  | RunOut.crashed evs e => RunOut.crashed (pre ++ evs) e
  | RunOut.fuelOut evs => RunOut.fuelOut (pre ++ evs)

/-- Cell lookup in a decoded shading matrix (a list of row lists). -/
def lookupS (s : List (List Bool)) (i j : Nat) : Bool :=
  (s.getD i []).getD j false

/-- The blocking clause added after a found solution (canal.py lines
98-100): the disjunction over all grid cells of `C[i][j] !=` its value
in the model, where `s` records the model's decoded shading. -/
def blockClauseB (nrow ncol : Nat) (s : List (List Bool)) (a : Asg) : Bool :=
  (allCells nrow ncol).any (fun p => a.C p.1 p.2 != lookupS s p.1 p.2)

/-- The predicate the oracle is asked to check: the constraints the
solver was loaded with, plus all blocking clauses added so far. -/
def queryPred (nrow ncol : Nat) (base : Asg → Bool) (blocks : List (List (List Bool)))
    (a : Asg) : Bool :=
  base a && blocks.all (fun s => blockClauseB nrow ncol s a)

/-- The `num_solutions >= slimit` test guarding the break (canal.py
lines 93-95); `none` models an unset `slimit`. -/
def slimitReached (slimit : Option Nat) (count : Nat) : Bool :=
  match slimit with
  | some n => decide (n ≤ count)
  | none => false

/-- The enumeration loop of `solve_and_print`: while `check()` is `sat`,
decode the model, run `verify(grid, Cbool, allow_weak=True)` (an error
propagates as an uncaught exception), emit the solution and its ordinal
line, break when `slimit` is reached, otherwise add the blocking clause
and continue.  When `check()` is not `sat` (unsatisfiable or unknown
alike) the loop exits and prints the zero-solutions or total-count
line. -/
def solveLoop (nrow ncol : Nat) (grid : Nat → Nat → Cell) (base : Asg → Bool)
    (find : (Asg → Bool) → CheckResult) (slimit : Option Nat) :
    Nat → List (List (List Bool)) → Nat → RunOut
  | 0, _, _ => RunOut.fuelOut []
  | fuel + 1, blocks, count =>
      match find (queryPred nrow ncol base blocks) with
      | CheckResult.sat a =>
          match verify nrow ncol grid a.C true with
          | Except.error e => RunOut.crashed [] e
          | Except.ok _ =>
              let s := decodeC nrow ncol a
              let out :=
                if slimitReached slimit (count + 1) then
                  RunOut.finished [Event.totalLine (count + 1)]
                else
                  solveLoop nrow ncol grid base find slimit fuel (blocks ++ [s]) (count + 1)
              RunOut.consEvents [Event.printedSolution s, Event.foundLine (count + 1)] out
      | _ =>
          RunOut.finished [if count = 0 then Event.noSolutionLine else Event.totalLine count]

/-- The solutions handed to the renderer during a run. -/
def solutionsOf (evs : List Event) : List (List (List Bool)) :=
  evs.filterMap (fun e =>
    match e with
    | Event.printedSolution s => some s
    | _ => none)

/-- Expected output shape of `k` found solutions starting after `c`
already-reported ones: each is rendered and then announced with its
ordinal index. -/
def mkFound : Nat → List (List (List Bool)) → List Event
  | _, [] => []
  | c, s :: rest => Event.printedSolution s :: Event.foundLine (c + 1) :: mkFound (c + 1) rest

/-- The final report line for a run with `m` found solutions. -/
def finalEvent (m : Nat) : Event :=
  if m = 0 then Event.noSolutionLine else Event.totalLine m

/-- The 1x1 grid whose only cell has no clue. -/
def gridNone : Nat → Nat → Cell := fun _ _ => Cell.noClue

/-- The 1x1 grid whose only cell holds the integer clue `-1` (the value
canalverify treats as a wildcard). -/
def gridNeg1 : Nat → Nat → Cell := fun _ _ => Cell.num (-1)

/-- The 1x1 grid whose only cell holds the integer clue `-5` (a value
canalverify skips entirely, since `-5 > -2` is false). -/
def gridNeg5 : Nat → Nat → Cell := fun _ _ => Cell.num (-5)

/-- The 1x1 grid whose only cell holds the integer clue `1`. -/
def gridOne : Nat → Nat → Cell := fun _ _ => Cell.num 1

/-- A 2x2 grid with no clues. -/
def gridFree2 : Nat → Nat → Cell := fun _ _ => Cell.noClue

/-- A model of the constraints of the 1x1 no-clue grid: the single cell
is the shaded root, with no edges. -/
def asgRoot : Asg :=
  { C := fun _ _ => false
    H0 := fun _ _ => false
    H1 := fun _ _ => false
    V0 := fun _ _ => false
    V1 := fun _ _ => false
    P := fun _ _ => false
    R := fun _ _ => true }

/-- The all-unshaded assignment on one cell (no root set). -/
def asgClear : Asg :=
  { C := fun _ _ => true
    H0 := fun _ _ => false
    H1 := fun _ _ => false
    V0 := fun _ _ => false
    V1 := fun _ _ => false
    P := fun _ _ => false
    R := fun _ _ => false }

/-- A model of the constraints of the 2x2 no-clue grid in which the
unshaded non-root cell (1,0) carries both a rightward horizontal edge
and an upward vertical edge: the root is the shaded cell (0,1), every
edge pair is legal, and invariant 7 holds vacuously. -/
def asgBothAxes : Asg :=
  { C := fun i j => !(i == 0 && j == 1)
    H0 := fun _ _ => false
    H1 := fun i j => i == 1 && j == 0
    V0 := fun _ _ => false
    V1 := fun i j => i == 1 && j == 0
    P := fun _ _ => false
    R := fun i j => i == 0 && j == 1 }

/-- An oracle that reports the root model of the 1x1 no-clue grid when
it still satisfies the query, and unsatisfiable afterwards. -/
def findRoot : (Asg → Bool) → CheckResult := fun P =>
  if P asgRoot = true then CheckResult.sat asgRoot else CheckResult.unsat

/-- An oracle that always reports an indeterminate result. -/
def findUnknown : (Asg → Bool) → CheckResult := fun _ => CheckResult.unknown

/-- An oracle that reports the all-shaded 1x1 assignment while it
satisfies the query and an indeterminate result afterwards. -/
def findThenUnknown : (Asg → Bool) → CheckResult := fun P =>
  if P asgRoot = true then CheckResult.sat asgRoot else CheckResult.unknown

/-- A sound and complete oracle for queries that only constrain the
single cell of a 1x1 grid: it tries the shaded assignment, then the
unshaded one, and reports unsatisfiable if neither fits. -/
def findBoth : (Asg → Bool) → CheckResult := fun P =>
  if P asgRoot = true then CheckResult.sat asgRoot
  else if P asgClear = true then CheckResult.sat asgClear
  else CheckResult.unsat

theorem mem_allCells {nrow ncol : Nat} {p : Nat × Nat} :
    p ∈ allCells nrow ncol ↔ p.1 < nrow ∧ p.2 < ncol := by
  cases p with
  | mk i j =>
    simp [allCells, List.mem_range]

theorem constraints_root {nrow ncol : Nat} {grid : Nat → Nat → Cell} {a : Asg}
    (h : constraintsHold nrow ncol grid a = true) : rootPb nrow ncol a = true :=
  ((Bool.and_eq_true _ _).mp h).1

theorem constraints_cell {nrow ncol : Nat} {grid : Nat → Nat → Cell} {a : Asg}
    (h : constraintsHold nrow ncol grid a = true) {i j : Nat}
    (hi : i < nrow) (hj : j < ncol) : cellCs nrow ncol grid a i j = true := by
  have h2 := ((Bool.and_eq_true _ _).mp h).2
  rw [List.all_eq_true] at h2
  have h3 := h2 i (List.mem_range.mpr hi)
  rw [List.all_eq_true] at h3
  exact h3 j (List.mem_range.mpr hj)

/-- Claim C1: for the 1x1 no-clue grid, the shaded-root assignment
satisfies every constraint `add_constraints` builds, yet strict
verification does not succeed: `verify` raises a type error when it
compares the no-clue marker with `-2`, so the decoded solution of this
model never passes `verify(grid, shading, strict)`. -/
theorem c1_model_crashes_strict_verify :
    constraintsHold 1 1 gridNone asgRoot = true ∧
    verify 1 1 gridNone asgRoot.C false = Except.error VError.typeErr :=
  ⟨by decide, rfl⟩

/-- Claim C2: when the oracle reports an indeterminate result the
enumeration loop of `solve_and_print` exits its `while check() == sat`
test like an unsatisfiable answer and prints the normal report: the
zero-solutions line when the first check is unknown, and the normal
total-count line when a later check is unknown.  No indeterminate-result
error is ever signalled. -/
theorem c2_unknown_prints_normal_report :
    solveLoop 1 1 gridNone (fun _ => true) findUnknown none 3 [] 0 =
      RunOut.finished [Event.noSolutionLine] ∧
    solveLoop 1 1 gridNeg5 (fun _ => true) findThenUnknown none 3 [] 0 =
      RunOut.finished
        [Event.printedSolution [[false]], Event.foundLine 1, Event.totalLine 1] :=
  ⟨rfl, rfl⟩

/-- Claim C3: the encoder and the verifier classify clue cells
differently.  The integer clue `-1` is an exact numeric clue for the
encoder (which asserts `-1` equals the visible count, unsatisfiable on
the 1x1 grid) but a wildcard for the verifier (`-2 < -1 < 0`: accepted
with no count check); conversely the distinct no-clue marker is skipped
by the encoder but makes the verifier's comparison `clue > -2` fail
with a type error. -/
theorem c3_classification_divergence :
    (∀ a : Asg, constraintsHold 1 1 gridNeg1 a = false) ∧
    verify 1 1 gridNeg1 (fun _ _ => true) false = Except.ok () ∧
    verify 1 1 gridNone (fun _ _ => true) false = Except.error VError.typeErr ∧
    constraintsHold 1 1 gridNone asgRoot = true := by
  refine ⟨?_, rfl, rfl, by decide⟩
  intro a
  by_cases hc : a.C 0 0 = true
  · simp [constraintsHold, cellCs, clueC, gridNeg1, encCount, encNumLeft,
      encNumRight, encNumUp, encNumDown, hc]
  · simp [constraintsHold, cellCs, clueC, gridNeg1,
      Bool.not_eq_true] at hc ⊢
    simp [hc]

/-- Claim C4, counterexample: a model of the full constraint set for the
2x2 no-clue grid in which invariants 6 and 7 both hold, yet the arrow
decoding of the unshaded non-root cell (1,0) yields the unexpected
marker, because that cell carries one edge in each axis. -/
theorem c4_counterexample :
    constraintsHold 2 2 gridFree2 asgBothAxes = true ∧
    inv6 2 2 asgBothAxes = true ∧
    inv7 2 2 asgBothAxes = true ∧
    decodeArrow asgBothAxes 1 0 = '?' :=
  ⟨by decide, by decide, by decide, by decide⟩

/-- Claim C7, counterexample: a zero-shaded matrix is not always
accepted: on the 1x1 grid with numeric clue 1 the all-unshaded shading
fails the clue-count check (0 visible instead of 1) in strict and in
lenient mode alike. -/
theorem c7_counterexample :
    verify 1 1 gridOne (fun _ _ => true) false =
      Except.error (VError.countMismatch 0 0 0 1) ∧
    verify 1 1 gridOne (fun _ _ => true) true =
      Except.error (VError.countMismatch 0 0 0 1) :=
  ⟨rfl, rfl⟩

/-- Claim C10, counterexample: `verify` can raise through a path that is
none of its four explicit rule-violation checks: on a grid holding the
no-clue marker the comparison `clue > -2` raises a type error. -/
theorem c10_counterexample :
    verify 1 1 gridNone (fun _ _ => true) false = Except.error VError.typeErr ∧
    isRuleViolation VError.typeErr = false :=
  ⟨rfl, rfl⟩

/-- Claim C4, amended: in every model of the constraint set, every
shaded in-range cell decodes to one of the five expected symbols, never
to the unexpected marker: the root decodes to the no-edge symbol and
every shaded non-root cell to exactly one arrow. -/
theorem c4_shaded_cells_decode (nrow ncol : Nat) (grid : Nat → Nat → Cell) (a : Asg)
    (h : constraintsHold nrow ncol grid a = true) (i j : Nat)
    (hi : i < nrow) (hj : j < ncol) (hC : a.C i j = false) :
    decodeArrow a i j ≠ '?' := by
  have hc := constraints_cell h hi hj
  simp only [cellCs, Bool.and_eq_true] at hc
  obtain ⟨⟨⟨⟨⟨⟨⟨⟨⟨⟨⟨⟨⟨⟨⟨h1, h2⟩, h3⟩, h4⟩, h5⟩, h6⟩, h7⟩, h8⟩, h9⟩, h10⟩,
    h11⟩, h12⟩, h13⟩, h14⟩, h15⟩, h16⟩ := hc
  cases hR : a.R i j with
  | true =>
    have habs : absentH a i j = true ∧ absentV a i j = true := by
      simpa [hR] using h3
    simp [decodeArrow, habs.1, habs.2]
  | false =>
    have hcnt : countArrows a i j = 1 := by
      simpa [hC, hR] using h6
    cases hH0 : a.H0 i j <;> cases hH1 : a.H1 i j <;>
      cases hV0 : a.V0 i j <;> cases hV1 : a.V1 i j <;>
      simp_all [decodeArrow, absentH, absentV, countArrows]

/-- Claim C4, witness: the shaded root cell of the 1x1 no-clue model
decodes to a proper symbol. -/
theorem c4_witness :
    constraintsHold 1 1 gridNone asgRoot = true ∧ decodeArrow asgRoot 0 0 ≠ '?' :=
  ⟨by decide,
    c4_shaded_cells_decode 1 1 gridNone asgRoot (by decide) 0 0 (by decide)
      (by decide) (by decide)⟩

theorem length_filter_eq_one {α : Type} (p : α → Bool) :
    ∀ l : List α, (l.filter p).length = 1 →
      ∃ x, x ∈ l ∧ p x = true ∧ ∀ y ∈ l, p y = true → y = x := by
  intro l
  induction l with
  | nil => intro h; simp at h
  | cons a t ih =>
    intro h
    by_cases hp : p a = true
    · rw [List.filter_cons_of_pos hp] at h
      simp only [List.length_cons] at h
      have hlen : (t.filter p).length = 0 := by omega
      have ht : t.filter p = [] := List.length_eq_zero.mp hlen
      refine ⟨a, List.mem_cons_self a t, hp, ?_⟩
      intro y hy hpy
      rcases List.mem_cons.mp hy with h1 | h2
      · exact h1
      · exfalso
        have : y ∈ t.filter p := List.mem_filter.mpr ⟨h2, hpy⟩
        simp [ht] at this
    · rw [List.filter_cons_of_neg (by simpa using hp)] at h
      obtain ⟨x, hx, hpx, huniq⟩ := ih h
      refine ⟨x, List.mem_cons_of_mem _ hx, hpx, ?_⟩
      intro y hy hpy
      rcases List.mem_cons.mp hy with h1 | h2
      · exact absurd (h1 ▸ hpy) hp
      · exact huniq y h2 hpy

/-- Claim C8: in every model of the constraint set there is exactly one
in-range cell with `R = true`, and that cell is shaded with all four of
its edge booleans false. -/
theorem c8_unique_root (nrow ncol : Nat) (grid : Nat → Nat → Cell) (a : Asg)
    (h : constraintsHold nrow ncol grid a = true) :
    ∃ i j, i < nrow ∧ j < ncol ∧ a.R i j = true ∧ a.C i j = false ∧
      a.H0 i j = false ∧ a.H1 i j = false ∧ a.V0 i j = false ∧ a.V1 i j = false ∧
      ∀ i' j', i' < nrow → j' < ncol → a.R i' j' = true → i' = i ∧ j' = j := by
  have hr := constraints_root h
  rw [rootPb, beq_iff_eq] at hr
  obtain ⟨p, hpmem, hpR, huniq⟩ := length_filter_eq_one _ _ hr
  obtain ⟨hi, hj⟩ := mem_allCells.mp hpmem
  have hc := constraints_cell h hi hj
  simp only [cellCs, Bool.and_eq_true] at hc
  obtain ⟨⟨⟨⟨⟨⟨⟨⟨⟨⟨⟨⟨⟨⟨⟨h1, h2⟩, h3⟩, h4⟩, h5⟩, h6⟩, h7⟩, h8⟩, h9⟩, h10⟩,
    h11⟩, h12⟩, h13⟩, h14⟩, h15⟩, h16⟩ := hc
  have hCshaded : a.C p.1 p.2 = false := by
    have := h2
    rw [hpR] at this
    simpa using this
  have hedges : absentH a p.1 p.2 = true ∧ absentV a p.1 p.2 = true := by
    have := h3
    rw [hpR] at this
    simpa using this
  have hH0 : a.H0 p.1 p.2 = false := by
    have := hedges.1
    simp [absentH, Bool.and_eq_true] at this
    exact this.1
  have hH1 : a.H1 p.1 p.2 = false := by
    have := hedges.1
    simp [absentH, Bool.and_eq_true] at this
    exact this.2
  have hV0 : a.V0 p.1 p.2 = false := by
    have := hedges.2
    simp [absentV, Bool.and_eq_true] at this
    exact this.1
  have hV1 : a.V1 p.1 p.2 = false := by
    have := hedges.2
    simp [absentV, Bool.and_eq_true] at this
    exact this.2
  refine ⟨p.1, p.2, hi, hj, hpR, hCshaded, hH0, hH1, hV0, hV1, ?_⟩
  intro i' j' hi' hj' hR'
  have := huniq (i', j') (mem_allCells.mpr ⟨hi', hj'⟩) hR'
  exact ⟨congrArg Prod.fst this, congrArg Prod.snd this⟩

/-- Claim C8, witness: the root model of the 1x1 no-clue grid has its
unique root at (0,0), shaded with no edges. -/
theorem c8_witness :
    constraintsHold 1 1 gridNone asgRoot = true ∧
    ∃ i j, i < 1 ∧ j < 1 ∧ asgRoot.R i j = true ∧ asgRoot.C i j = false ∧
      asgRoot.H0 i j = false ∧ asgRoot.H1 i j = false ∧ asgRoot.V0 i j = false ∧
      asgRoot.V1 i j = false ∧
      ∀ i' j', i' < 1 → j' < 1 → asgRoot.R i' j' = true → i' = i ∧ j' = j :=
  ⟨by decide, c8_unique_root 1 1 gridNone asgRoot (by decide)⟩

theorem encNumLeft_spec (C : Nat → Nat → Bool) (i : Nat) :
    ∀ y acc blocked, encNumLeft C i y acc blocked =
      acc + (if blocked then 0 else visLeft C i y) := by
  intro y
  induction y with
  | zero => intro acc blocked; cases blocked <;> simp [encNumLeft, visLeft]
  | succ y ih =>
    intro acc blocked
    rw [encNumLeft, ih]
    cases blocked <;> cases hc : C i y <;> simp [visLeft, hc] <;> omega

theorem encNumUp_spec (C : Nat → Nat → Bool) (j : Nat) :
    ∀ x acc blocked, encNumUp C j x acc blocked =
      acc + (if blocked then 0 else visUp C j x) := by
  intro x
  induction x with
  | zero => intro acc blocked; cases blocked <;> simp [encNumUp, visUp]
  | succ x ih =>
    intro acc blocked
    rw [encNumUp, ih]
    cases blocked <;> cases hc : C x j <;> simp [visUp, hc] <;> omega

theorem encNumRight_spec (C : Nat → Nat → Bool) (i : Nat) :
    ∀ f y acc blocked, encNumRight C i f y acc blocked =
      acc + (if blocked then 0 else visRight C i f y) := by
  intro f
  induction f with
  | zero => intro y acc blocked; cases blocked <;> simp [encNumRight, visRight]
  | succ f ih =>
    intro y acc blocked
    rw [encNumRight, ih]
    cases blocked <;> cases hc : C i (y + 1) <;> simp [visRight, hc] <;> omega

theorem encNumDown_spec (C : Nat → Nat → Bool) (j : Nat) :
    ∀ f x acc blocked, encNumDown C j f x acc blocked =
      acc + (if blocked then 0 else visDown C j f x) := by
  intro f
  induction f with
  | zero => intro x acc blocked; cases blocked <;> simp [encNumDown, visDown]
  | succ f ih =>
    intro x acc blocked
    rw [encNumDown, ih]
    cases blocked <;> cases hc : C (x + 1) j <;> simp [visDown, hc] <;> omega

/-- Claim C6: on every shading assignment, the integer line-of-sight
expression the encoder asserts equal to a numeric clue (sum of the four
running-blocked-flag directional counts) has exactly the value of the
verifier's independently implemented `visible_canal` walk. -/
theorem c6_encoder_count_eq_visible (nrow ncol : Nat) (C : Nat → Nat → Bool)
    (i j : Nat) : encCount nrow ncol C i j = visible_canal nrow ncol i j C := by
  have e1 : nrow - 1 - i = nrow - (i + 1) := by omega
  have e2 : ncol - 1 - j = ncol - (j + 1) := by omega
  simp only [encCount, visible_canal, encNumLeft_spec, encNumRight_spec,
    encNumUp_spec, encNumDown_spec, if_neg, Bool.false_eq_true, not_false_iff,
    e1, e2]
  ring

theorem check2x2_allTrue (nrow ncol : Nat) :
    check2x2 nrow ncol (fun _ _ => true) = Except.ok () := by
  simp only [check2x2]
  have h : List.find? (fun p => !((true : Bool) || true || true || true))
      (allCells (nrow - 1) (ncol - 1)) = none := by
    rw [List.find?_eq_none]
    intro p hp
    simp
  rw [h]

theorem forEachE_ok_iff (f : Nat × Nat → Except VError Unit) :
    ∀ l, forEachE f l = Except.ok () ↔ ∀ p ∈ l, f p = Except.ok () := by
  intro l
  induction l with
  | nil => simp [forEachE]
  | cons p rest ih =>
    rw [forEachE]
    cases hf : f p with
    | error e => simp [hf, Bind.bind, Except.bind]
    | ok u =>
      cases u
      simp [hf, Bind.bind, Except.bind, ih]

theorem visUp_allTrue (j : Nat) : ∀ k, visUp (fun _ _ => true) j k = 0 := by
  intro k; cases k <;> simp [visUp]

theorem visDown_allTrue (j : Nat) : ∀ f k, visDown (fun _ _ => true) j f k = 0 := by
  intro f k; cases f <;> simp [visDown]

theorem visLeft_allTrue (i : Nat) : ∀ k, visLeft (fun _ _ => true) i k = 0 := by
  intro k; cases k <;> simp [visLeft]

theorem visRight_allTrue (i : Nat) : ∀ f k, visRight (fun _ _ => true) i f k = 0 := by
  intro f k; cases f <;> simp [visRight]

theorem visible_allTrue (nrow ncol i j : Nat) :
    visible_canal nrow ncol i j (fun _ _ => true) = 0 := by
  simp [visible_canal, visUp_allTrue, visDown_allTrue, visLeft_allTrue, visRight_allTrue]

theorem totalShaded_allTrue (nrow ncol : Nat) :
    totalShaded nrow ncol (fun _ _ => true) = 0 := by
  simp [totalShaded]

theorem clueCheckCell_allTrue_iff (nrow ncol : Nat) (grid : Nat → Nat → Cell)
    (p : Nat × Nat) :
    clueCheckCell nrow ncol grid (fun _ _ => true) p = Except.ok () ↔
      ∃ n, grid p.1 p.2 = Cell.num n ∧ n ≤ 0 := by
  cases hg : grid p.1 p.2 with
  | noClue => simp [clueCheckCell, hg]
  | wild => simp [clueCheckCell, hg]
  | num n =>
    have hval : clueCheckCell nrow ncol grid (fun _ _ => true) p =
        (if (-2 : Int) < n then
          (if (0 : Int) ≤ n then
            (if (0 : Int) ≠ n then
              Except.error (VError.countMismatch p.1 p.2 0 n)
            else Except.ok ())
          else Except.ok ())
        else Except.ok ()) := by
      simp [clueCheckCell, hg, visible_allTrue]
    rw [hval]
    split_ifs with h2 h0 hne
    · constructor
      · intro h; simp at h
      · rintro ⟨n', hn', hle⟩
        injection hn' with hnn
        omega
    · constructor
      · intro _; exact ⟨n, rfl, by omega⟩
      · intro _; rfl
    · constructor
      · intro _; exact ⟨n, rfl, by omega⟩
      · intro _; rfl
    · constructor
      · intro _; exact ⟨n, rfl, by omega⟩
      · intro _; rfl

theorem c7_zero_shaded_iff (nrow ncol : Nat) (grid : Nat → Nat → Cell) (aw : Bool) :
    verify nrow ncol grid (fun _ _ => true) aw = Except.ok () ↔
      ∀ i j, i < nrow → j < ncol → ∃ n, grid i j = Cell.num n ∧ n ≤ 0 := by
  have key : verify nrow ncol grid (fun _ _ => true) aw = Except.ok () ↔
      forEachE (clueCheckCell nrow ncol grid (fun _ _ => true)) (allCells nrow ncol) =
        Except.ok () := by
    rw [verify, check2x2_allTrue]
    cases hF : forEachE (clueCheckCell nrow ncol grid (fun _ _ => true))
        (allCells nrow ncol) with
    | error e => simp [Bind.bind, Except.bind, hF]
    | ok u =>
      cases u
      simp only [Bind.bind, Except.bind, hF, totalShaded_allTrue, if_pos rfl]
      constructor
      · intro _; trivial
      · intro _
        show Except.ok () = Except.ok ()
        rfl
  rw [key, forEachE_ok_iff]
  constructor
  · intro h i j hi hj
    exact (clueCheckCell_allTrue_iff nrow ncol grid (i, j)).mp
      (h (i, j) (mem_allCells.mpr ⟨hi, hj⟩))
  · intro h p hp
    obtain ⟨hi, hj⟩ := mem_allCells.mp hp
    exact (clueCheckCell_allTrue_iff nrow ncol grid p).mpr (h p.1 p.2 hi hj)

theorem check2x2_not_noShaded (nrow ncol : Nat) (C : Nat → Nat → Bool) :
    check2x2 nrow ncol C ≠ Except.error VError.noShadedSquare := by
  rw [check2x2]
  cases hfind : List.find? (fun p =>
      !(C p.1 p.2 || C p.1 (p.2 + 1) || C (p.1 + 1) p.2 || C (p.1 + 1) (p.2 + 1)))
      (allCells (nrow - 1) (ncol - 1)) with
  | none => simp
  | some p => simp

theorem clueCheckCell_not_noShaded (nrow ncol : Nat) (grid : Nat → Nat → Cell)
    (C : Nat → Nat → Bool) (p : Nat × Nat) :
    clueCheckCell nrow ncol grid C p ≠ Except.error VError.noShadedSquare := by
  cases hg : grid p.1 p.2 <;> simp [clueCheckCell, hg] <;> split_ifs <;> simp

theorem forEachE_error (f : Nat × Nat → Except VError Unit) :
    ∀ l e, forEachE f l = Except.error e → ∃ p ∈ l, f p = Except.error e := by
  intro l
  induction l with
  | nil => intro e h; simp [forEachE] at h
  | cons p rest ih =>
    intro e h
    rw [forEachE] at h
    cases hf : f p with
    | error e' =>
      rw [hf] at h
      simp [Bind.bind, Except.bind] at h
      exact ⟨p, List.mem_cons_self p rest, by rw [hf, h]⟩
    | ok u =>
      cases u
      rw [hf] at h
      simp only [Bind.bind, Except.bind] at h
      obtain ⟨q, hq, hfq⟩ := ih e h
      exact ⟨q, List.mem_cons_of_mem p hq, hfq⟩

theorem totalShaded_zero_of_none (nrow ncol : Nat) (C : Nat → Nat → Bool)
    (h : List.find? (fun p => !(C p.1 p.2)) (allCells nrow ncol) = none) :
    totalShaded nrow ncol C = 0 := by
  rw [List.find?_eq_none] at h
  rw [totalShaded]
  apply List.sum_eq_zero
  intro x hx
  obtain ⟨i, hi, hxeq⟩ := List.mem_map.mp hx
  subst hxeq
  rw [List.length_eq_zero]
  rw [List.filter_eq_nil_iff]
  intro j hj
  have := h (i, j) (mem_allCells.mpr ⟨List.mem_range.mp hi, List.mem_range.mp hj⟩)
  simpa using this

/-- Claim C10, amended: verify never raises the missing-shaded-square
error of `find_first_shaded`, because that helper is only invoked after
the shaded-cell count is known to be positive. -/
theorem c10_no_shaded_error_unreachable (nrow ncol : Nat) (grid : Nat → Nat → Cell)
    (C : Nat → Nat → Bool) (aw : Bool) :
    verify nrow ncol grid C aw ≠ Except.error VError.noShadedSquare := by
  intro h
  rw [verify] at h
  cases h2 : check2x2 nrow ncol C with
  | error e =>
    rw [h2] at h
    simp [Bind.bind, Except.bind] at h
    rw [h] at h2
    exact check2x2_not_noShaded nrow ncol C h2
  | ok u =>
    cases u
    rw [h2] at h
    cases h3 : forEachE (clueCheckCell nrow ncol grid C) (allCells nrow ncol) with
    | error e =>
      rw [h3] at h
      simp [Bind.bind, Except.bind] at h
      rw [h] at h3
      obtain ⟨p, _, hp⟩ := forEachE_error _ _ _ h3
      exact clueCheckCell_not_noShaded nrow ncol grid C p hp
    | ok u =>
      cases u
      rw [h3] at h
      simp only [Bind.bind, Except.bind] at h
      by_cases htc : totalShaded nrow ncol C = 0
      · rw [if_pos htc] at h
        simp [Pure.pure, Except.pure] at h
      · rw [if_neg htc] at h
        cases hfind : List.find? (fun p => !(C p.1 p.2)) (allCells nrow ncol) with
        | none =>
          exact htc (totalShaded_zero_of_none nrow ncol C hfind)
        | some p =>
          rw [find_first_shaded, hfind] at h
          simp only [Bind.bind, Except.bind] at h
          by_cases haw : aw = true
          · rw [if_pos haw] at h
            simp [Pure.pure, Except.pure] at h
          · rw [if_neg haw] at h
            by_cases hlen : (traverse nrow ncol C (4 * nrow * ncol + 1) [p] []).length ≠
                totalShaded nrow ncol C
            · rw [if_pos hlen] at h
              simp at h
            · rw [if_neg hlen] at h
              simp [Pure.pure, Except.pure] at h

theorem list_map_eq_map_iff {α β : Type} (f g : α → β) :
    ∀ l : List α, l.map f = l.map g ↔ ∀ x ∈ l, f x = g x := by
  intro l
  induction l with
  | nil => simp
  | cons a t ih => simp [ih]

theorem getD_map_range {β : Type} (n : Nat) (f : Nat → β) (d : β) (i : Nat)
    (h : i < n) : ((List.range n).map f).getD i d = f i := by
  rw [List.getD_eq_getElem?_getD, List.getElem?_map, List.getElem?_range h]
  rfl

theorem decodeC_eq_iff (nrow ncol : Nat) (a b : Asg) :
    decodeC nrow ncol a = decodeC nrow ncol b ↔
      ∀ i j, i < nrow → j < ncol → a.C i j = b.C i j := by
  rw [decodeC, decodeC, list_map_eq_map_iff]
  constructor
  · intro h i j hi hj
    have h2 := h i (List.mem_range.mpr hi)
    rw [list_map_eq_map_iff] at h2
    exact h2 j (List.mem_range.mpr hj)
  · intro h i hi
    rw [list_map_eq_map_iff]
    intro j hj
    exact h i j (List.mem_range.mp hi) (List.mem_range.mp hj)

theorem lookupS_decodeC (nrow ncol : Nat) (a : Asg) (i j : Nat)
    (hi : i < nrow) (hj : j < ncol) :
    lookupS (decodeC nrow ncol a) i j = a.C i j := by
  rw [lookupS, decodeC, getD_map_range nrow _ [] i hi, getD_map_range ncol _ false j hj]

theorem blockClauseB_ne (nrow ncol : Nat) (s : List (List Bool)) (a : Asg)
    (h : blockClauseB nrow ncol s a = true) : decodeC nrow ncol a ≠ s := by
  intro heq
  subst heq
  rw [blockClauseB, List.any_eq_true] at h
  obtain ⟨p, hp, hne⟩ := h
  obtain ⟨hi, hj⟩ := mem_allCells.mp hp
  rw [lookupS_decodeC nrow ncol a p.1 p.2 hi hj] at hne
  simp at hne

theorem blockClauseB_iff (nrow ncol : Nat) (m a : Asg) :
    blockClauseB nrow ncol (decodeC nrow ncol m) a = true ↔
      decodeC nrow ncol a ≠ decodeC nrow ncol m := by
  constructor
  · exact blockClauseB_ne nrow ncol (decodeC nrow ncol m) a
  · intro hne
    rw [blockClauseB, List.any_eq_true]
    rw [Ne, decodeC_eq_iff] at hne
    push_neg at hne
    obtain ⟨i, j, hi, hj, hcc⟩ := hne
    refine ⟨(i, j), mem_allCells.mpr ⟨hi, hj⟩, ?_⟩
    rw [lookupS_decodeC nrow ncol m i j hi hj]
    simpa using hcc

theorem blockClauseB_onlyC (nrow ncol : Nat) (s : List (List Bool)) (a b : Asg)
    (h : ∀ i j, a.C i j = b.C i j) :
    blockClauseB nrow ncol s a = blockClauseB nrow ncol s b := by
  rw [blockClauseB, blockClauseB]
  congr 1
  funext p
  rw [h p.1 p.2]

theorem events_consEvents (pre : List Event) (r : RunOut) :
    (RunOut.consEvents pre r).events = pre ++ r.events := by
  cases r <;> rfl

theorem solutionsOf_append (l1 l2 : List Event) :
    solutionsOf (l1 ++ l2) = solutionsOf l1 ++ solutionsOf l2 := by
  rw [solutionsOf, solutionsOf, solutionsOf, List.filterMap_append]

theorem solveLoop_sols (nrow ncol : Nat) (grid : Nat → Nat → Cell) (base : Asg → Bool)
    (find : (Asg → Bool) → CheckResult) (slimit : Option Nat)
    (hsat : ∀ P a, find P = CheckResult.sat a → P a = true) :
    ∀ fuel blocks count,
      (∀ s ∈ solutionsOf
          (solveLoop nrow ncol grid base find slimit fuel blocks count).events,
        s ∉ blocks) ∧
      List.Pairwise (· ≠ ·)
        (solutionsOf (solveLoop nrow ncol grid base find slimit fuel blocks count).events) := by
  intro fuel
  induction fuel with
  | zero =>
    intro blocks count
    simp [solveLoop, solutionsOf, RunOut.events]
  | succ fuel ih =>
    intro blocks count
    rw [solveLoop]
    split
    case _ a heq =>
      split
      case _ e heqv =>
        simp [RunOut.events, solutionsOf]
      case _ u heqv =>
        dsimp only
        have hnotin : decodeC nrow ncol a ∉ blocks := by
          have hq := hsat _ a heq
          rw [queryPred, Bool.and_eq_true] at hq
          have hall := hq.2
          rw [List.all_eq_true] at hall
          intro hmem
          exact blockClauseB_ne nrow ncol _ a (hall _ hmem) rfl
        by_cases hsl : slimitReached slimit (count + 1) = true
        · rw [if_pos hsl, events_consEvents]
          constructor
          · intro s hs
            simp [solutionsOf, RunOut.events] at hs
            subst hs
            exact hnotin
          · simp [solutionsOf, RunOut.events]
        · rw [if_neg hsl, events_consEvents]
          obtain ⟨ihmem, ihpw⟩ := ih (blocks ++ [decodeC nrow ncol a]) (count + 1)
          constructor
          · intro s hs
            rw [solutionsOf_append] at hs
            rcases List.mem_append.mp hs with h1 | h2
            · simp [solutionsOf] at h1
              subst h1
              exact hnotin
            · intro hmem
              exact ihmem s h2 (List.mem_append_left _ hmem)
          · rw [solutionsOf_append]
            have hhead : solutionsOf [Event.printedSolution (decodeC nrow ncol a),
                Event.foundLine (count + 1)] = [decodeC nrow ncol a] := rfl
            rw [hhead, List.singleton_append, List.pairwise_cons]
            constructor
            · intro t ht heq2
              exact ihmem t ht (List.mem_append_right _ (by simp [heq2]))
            · exact ihpw
    case _ x hne =>
      by_cases hc : count = 0 <;> simp [RunOut.events, solutionsOf, hc]

/-- Claim C5: the blocking clause built from a model is a constraint on
the shading variables only: it holds of an assignment exactly when its
decoded shading differs from the model's, and it is insensitive to the
auxiliary variables; consequently the solutions reported in one
enumeration run have pairwise distinct shading matrices. -/
theorem c5_blocking_clause_distinct (nrow ncol : Nat) (grid : Nat → Nat → Cell)
    (base : Asg → Bool) (find : (Asg → Bool) → CheckResult) (slimit : Option Nat)
    (fuel : Nat) (hsat : ∀ P a, find P = CheckResult.sat a → P a = true) :
    (∀ m a, blockClauseB nrow ncol (decodeC nrow ncol m) a = true ↔
        decodeC nrow ncol a ≠ decodeC nrow ncol m) ∧
    (∀ s a b, (∀ i j, a.C i j = b.C i j) →
        blockClauseB nrow ncol s a = blockClauseB nrow ncol s b) ∧
    List.Pairwise (· ≠ ·)
      (solutionsOf (solveLoop nrow ncol grid base find slimit fuel [] 0).events) :=
  ⟨fun m a => blockClauseB_iff nrow ncol m a,
   fun s a b h => blockClauseB_onlyC nrow ncol s a b h,
   (solveLoop_sols nrow ncol grid base find slimit hsat fuel [] 0).2⟩

/-- Claim C5, witness: a two-solution enumeration on the 1x1 grid with
clue -5 using a sound oracle reports distinct shadings. -/
theorem c5_witness :
    (∀ P a, findBoth P = CheckResult.sat a → P a = true) ∧
    ((∀ m a, blockClauseB 1 1 (decodeC 1 1 m) a = true ↔
        decodeC 1 1 a ≠ decodeC 1 1 m) ∧
     (∀ s a b, (∀ i j, a.C i j = b.C i j) →
        blockClauseB 1 1 s a = blockClauseB 1 1 s b) ∧
     List.Pairwise (· ≠ ·)
       (solutionsOf (solveLoop 1 1 gridNeg5 (fun _ => true) findBoth (some 2) 4 [] 0).events)) := by
  have hs : ∀ P a, findBoth P = CheckResult.sat a → P a = true := by
    intro P a h
    rw [findBoth] at h
    by_cases h1 : P asgRoot = true
    · rw [if_pos h1] at h
      injection h with h2
      subst h2
      exact h1
    · rw [if_neg h1] at h
      by_cases h2 : P asgClear = true
      · rw [if_pos h2] at h
        injection h with h3
        subst h3
        exact h2
      · rw [if_neg h2] at h
        exact CheckResult.noConfusion h
  exact ⟨hs, c5_blocking_clause_distinct 1 1 gridNeg5 (fun _ => true) findBoth (some 2) 4 hs⟩

def remList {α : Type} [DecidableEq α] (L blocks : List α) : List α :=
  L.filter (fun t => decide (t ∉ blocks))

theorem mem_remList {α : Type} [DecidableEq α] {L blocks : List α} {t : α} :
    t ∈ remList L blocks ↔ t ∈ L ∧ t ∉ blocks := by
  rw [remList, List.mem_filter]
  simp

theorem remList_out_one {α : Type} [DecidableEq α] (L blocks : List α)
    (s : α) (hnd : L.Nodup) (hsL : s ∈ L) (hsnb : s ∉ blocks) :
    (remList L (blocks ++ [s])).length + 1 = (remList L blocks).length := by
  have hsrem : s ∈ remList L blocks := mem_remList.mpr ⟨hsL, hsnb⟩
  have hfilter : remList L (blocks ++ [s]) =
      (remList L blocks).filter (fun t => decide (t ≠ s)) := by
    rw [remList, remList, List.filter_filter]
    apply List.filter_congr
    intro t _
    by_cases h1 : t ∈ blocks
    · simp [h1]
    · by_cases h2 : t = s
      · simp [h1, h2]
      · simp [h1, h2]
  have hnodup : (remList L blocks).Nodup := by
    rw [remList]
    exact hnd.filter _
  have herase : (remList L blocks).filter (fun t => decide (t ≠ s)) =
      (remList L blocks).erase s := by
    rw [hnodup.erase_eq_filter]
    apply List.filter_congr
    intro x _
    by_cases h : x = s
    · simp [h]
    · simp [h]
  rw [hfilter, herase, List.length_erase_of_mem hsrem]
  have hpos : 0 < (remList L blocks).length :=
    List.length_pos.mpr (List.ne_nil_of_mem hsrem)
  omega

theorem solveLoop_min_aux (nrow ncol : Nat) (grid : Nat → Nat → Cell)
    (base : Asg → Bool) (find : (Asg → Bool) → CheckResult) (n : Nat)
    (L : List (List (List Bool)))
    (hsat : ∀ P a, find P = CheckResult.sat a → P a = true)
    (huns : ∀ blocks, find (queryPred nrow ncol base blocks) = CheckResult.unsat →
      ∀ a, queryPred nrow ncol base blocks a = false)
    (hunk : ∀ blocks, find (queryPred nrow ncol base blocks) ≠ CheckResult.unknown)
    (hver : ∀ a, base a = true → verify nrow ncol grid a.C true = Except.ok ())
    (hnd : L.Nodup)
    (hLc : ∀ s, s ∈ L ↔ ∃ a, base a = true ∧ decodeC nrow ncol a = s) :
    ∀ fuel blocks count,
      count < n →
      (∀ t ∈ blocks, t ∈ L) →
      (∀ t ∈ blocks, ∃ m, decodeC nrow ncol m = t) →
      (remList L blocks).length < fuel →
      ∃ ss, ss.length = min (n - count) (remList L blocks).length ∧
        solveLoop nrow ncol grid base find (some n) fuel blocks count =
          RunOut.finished (mkFound count ss ++
            [if count + min (n - count) (remList L blocks).length = 0
             then Event.noSolutionLine
             else Event.totalLine (count + min (n - count) (remList L blocks).length)]) := by
  intro fuel
  induction fuel with
  | zero =>
    intro blocks count _ _ _ hfuel
    omega
  | succ fuel ih =>
    intro blocks count hcount hball hshape hfuel
    rw [solveLoop]
    split
    case _ a heq =>
      have hq := hsat _ a heq
      rw [queryPred, Bool.and_eq_true] at hq
      obtain ⟨hbase, hall⟩ := hq
      rw [List.all_eq_true] at hall
      have hsnb : decodeC nrow ncol a ∉ blocks := by
        intro hmem
        exact blockClauseB_ne nrow ncol _ a (hall _ hmem) rfl
      have hsL : decodeC nrow ncol a ∈ L := (hLc _).mpr ⟨a, hbase, rfl⟩
      have hrempos : 0 < (remList L blocks).length :=
        List.length_pos.mpr (List.ne_nil_of_mem (mem_remList.mpr ⟨hsL, hsnb⟩))
      split
      case _ e heqv =>
        rw [hver a hbase] at heqv
        exact Except.noConfusion heqv
      case _ u heqv =>
        dsimp only
        by_cases hreach : slimitReached (some n) (count + 1) = true
        · have hn1 : n = count + 1 := by
            simp [slimitReached] at hreach
            omega
          have hmin : min (n - count) (remList L blocks).length = 1 := by
            omega
          rw [if_pos hreach, hmin]
          refine ⟨[decodeC nrow ncol a], rfl, ?_⟩
          rw [if_neg (by omega : ¬(count + 1 = 0))]
          rfl
        · have hcount1 : count + 1 < n := by
            simp [slimitReached] at hreach
            omega
          rw [if_neg hreach]
          have hball' : ∀ t ∈ blocks ++ [decodeC nrow ncol a], t ∈ L := by
            intro t ht
            rcases List.mem_append.mp ht with h1 | h2
            · exact hball t h1
            · rw [List.mem_singleton.mp h2]
              exact hsL
          have hshape' : ∀ t ∈ blocks ++ [decodeC nrow ncol a],
              ∃ m, decodeC nrow ncol m = t := by
            intro t ht
            rcases List.mem_append.mp ht with h1 | h2
            · exact hshape t h1
            · exact ⟨a, (List.mem_singleton.mp h2).symm⟩
          have hlen' := remList_out_one L blocks (decodeC nrow ncol a) hnd hsL hsnb
          have hfuel' : (remList L (blocks ++ [decodeC nrow ncol a])).length < fuel := by
            omega
          obtain ⟨ss', hsslen, hrec⟩ :=
            ih (blocks ++ [decodeC nrow ncol a]) (count + 1) hcount1 hball' hshape' hfuel'
          refine ⟨decodeC nrow ncol a :: ss', ?_, ?_⟩
          · rw [List.length_cons, hsslen]
            omega
          · rw [hrec]
            have hne1 : ¬(count + 1 +
                min (n - (count + 1)) (remList L (blocks ++ [decodeC nrow ncol a])).length
                  = 0) := by
              omega
            have hne2 : ¬(count + min (n - count) (remList L blocks).length = 0) := by
              omega
            simp only [if_neg hne1, if_neg hne2]
            have e1 : count + 1 +
                min (n - (count + 1)) (remList L (blocks ++ [decodeC nrow ncol a])).length =
                count + min (n - count) (remList L blocks).length := by
              omega
            rw [e1]
            rfl
    case _ x hns =>
      cases hfx : find (queryPred nrow ncol base blocks) with
      | sat a => exact absurd hfx (fun h => hns a h)
      | unknown => exact absurd hfx (hunk blocks)
      | unsat =>
        have hrem0 : remList L blocks = [] := by
          rw [remList, List.filter_eq_nil_iff]
          intro t htL hdec
          have htnb : t ∉ blocks := by simpa using hdec
          obtain ⟨m, hmb, hmd⟩ := (hLc t).mp htL
          have hq : queryPred nrow ncol base blocks m = true := by
            rw [queryPred, Bool.and_eq_true]
            refine ⟨hmb, ?_⟩
            rw [List.all_eq_true]
            intro t' ht'
            obtain ⟨m', hm'⟩ := hshape t' ht'
            rw [← hm']
            rw [blockClauseB_iff]
            rw [hmd, hm']
            intro hteq
            exact htnb (hteq ▸ ht')
          have hcontra := huns blocks hfx m
          rw [hq] at hcontra
          exact Bool.noConfusion hcontra
        rw [hrem0]
        refine ⟨[], by simp, ?_⟩
        by_cases hc : count = 0
        · simp [hc, mkFound]
        · simp [hc, mkFound]

/-- Claim C9, amended: with a cap of n >= 1 solutions configured, a
sound, complete and never-indeterminate oracle, and every model of the
constraint set passing the lenient per-solution verification, the
enumeration reports exactly min(n, number of distinct satisfying
shadings) solutions, each rendered and announced with its ordinal
index, followed by the total-count line (or the zero-solutions line). -/
theorem c9_enumeration_min (nrow ncol : Nat) (grid : Nat → Nat → Cell)
    (base : Asg → Bool) (find : (Asg → Bool) → CheckResult) (n : Nat)
    (L : List (List (List Bool))) (fuel : Nat)
    (hn : 1 ≤ n)
    (hsat : ∀ P a, find P = CheckResult.sat a → P a = true)
    (huns : ∀ blocks, find (queryPred nrow ncol base blocks) = CheckResult.unsat →
      ∀ a, queryPred nrow ncol base blocks a = false)
    (hunk : ∀ blocks, find (queryPred nrow ncol base blocks) ≠ CheckResult.unknown)
    (hver : ∀ a, base a = true → verify nrow ncol grid a.C true = Except.ok ())
    (hnd : L.Nodup)
    (hLc : ∀ s, s ∈ L ↔ ∃ a, base a = true ∧ decodeC nrow ncol a = s)
    (hfuel : L.length < fuel) :
    ∃ ss, ss.length = min n L.length ∧
      solveLoop nrow ncol grid base find (some n) fuel [] 0 =
        RunOut.finished (mkFound 0 ss ++ [finalEvent (min n L.length)]) := by
  have hrem : remList L ([] : List (List (List Bool))) = L := by
    rw [remList, List.filter_eq_self]
    intro t _
    simp
  obtain ⟨ss, hlen, heq⟩ :=
    solveLoop_min_aux nrow ncol grid base find n L hsat huns hunk hver hnd hLc
      fuel [] 0 (by omega) (by simp) (by simp) (by rw [hrem]; exact hfuel)
  rw [hrem] at hlen heq
  refine ⟨ss, by simpa using hlen, ?_⟩
  rw [heq]
  simp [finalEvent]

/-- Claim C9, counterexample: with the full constraint set of the 1x1
no-clue grid and a cap of one solution, a sound oracle produces the
(existing) root model, but the run crashes in the lenient verification
before reporting anything: it does not report min(1, 1) = 1
solutions. -/
theorem c9_counterexample :
    solveLoop 1 1 gridNone (constraintsHold 1 1 gridNone) findRoot (some 1) 3 [] 0 =
      RunOut.crashed [] VError.typeErr ∧
    constraintsHold 1 1 gridNone asgRoot = true :=
  ⟨rfl, by decide⟩

theorem queryPred_one_cell (blocks : List (List (List Bool))) (a : Asg) :
    queryPred 1 1 (fun _ => true) blocks a =
      blocks.all (fun s => a.C 0 0 != lookupS s 0 0) := by
  rw [queryPred]
  simp [blockClauseB, allCells, List.range_succ]

theorem decodeC_one_cell (a : Asg) : decodeC 1 1 a = [[a.C 0 0]] := by
  simp [decodeC, List.range_succ]

theorem verify_gridNeg5_ok (a : Asg) :
    verify 1 1 gridNeg5 a.C true = Except.ok () := by
  by_cases hc : a.C 0 0 = true
  · simp [verify, check2x2, clueCheckCell, forEachE, gridNeg5, allCells,
      totalShaded, find_first_shaded, Bind.bind, Except.bind, hc,
      List.range_succ, List.find?, List.findSome?, Option.map, Function.comp]
    rfl
  · rw [Bool.not_eq_true] at hc
    simp [verify, check2x2, clueCheckCell, forEachE, gridNeg5, allCells,
      totalShaded, find_first_shaded, Bind.bind, Except.bind, hc,
      List.range_succ, List.find?, List.findSome?, Option.map, Function.comp]
    rfl

/-- Claim C9, witness: on the 1x1 grid with integer clue -5 (on which
the lenient verification always succeeds), an exact oracle over the
trivially-true base constraint with a cap of one reports exactly
min(1, 2) = 1 of the two existing shadings. -/
theorem c9_witness :
    ([[[false]], [[true]]] : List (List (List Bool))).Nodup ∧
    ∃ ss, ss.length = min 1 ([[[false]], [[true]]] : List (List (List Bool))).length ∧
      solveLoop 1 1 gridNeg5 (fun _ => true) findBoth (some 1) 3 [] 0 =
        RunOut.finished (mkFound 0 ss ++
          [finalEvent (min 1 ([[[false]], [[true]]] : List (List (List Bool))).length)]) := by
  have hsat : ∀ P a, findBoth P = CheckResult.sat a → P a = true := by
    intro P a h
    rw [findBoth] at h
    by_cases h1 : P asgRoot = true
    · rw [if_pos h1] at h
      injection h with h2
      subst h2
      exact h1
    · rw [if_neg h1] at h
      by_cases h2 : P asgClear = true
      · rw [if_pos h2] at h
        injection h with h3
        subst h3
        exact h2
      · rw [if_neg h2] at h
        exact CheckResult.noConfusion h
  have huns : ∀ blocks,
      findBoth (queryPred 1 1 (fun _ => true) blocks) = CheckResult.unsat →
      ∀ a, queryPred 1 1 (fun _ => true) blocks a = false := by
    intro blocks hu a
    rw [findBoth] at hu
    by_cases h1 : queryPred 1 1 (fun _ => true) blocks asgRoot = true
    · rw [if_pos h1] at hu
      exact CheckResult.noConfusion hu
    · rw [if_neg h1] at hu
      by_cases h2 : queryPred 1 1 (fun _ => true) blocks asgClear = true
      · rw [if_pos h2] at hu
        exact CheckResult.noConfusion hu
      · rw [Bool.not_eq_true] at h1 h2
        by_cases hc : a.C 0 0 = true
        · rw [queryPred_one_cell] at h2 ⊢
          rw [show (asgClear.C 0 0 : Bool) = true from rfl] at h2
          rw [hc]
          exact h2
        · rw [Bool.not_eq_true] at hc
          rw [queryPred_one_cell] at h1 ⊢
          rw [show (asgRoot.C 0 0 : Bool) = false from rfl] at h1
          rw [hc]
          exact h1
  have hunk : ∀ blocks,
      findBoth (queryPred 1 1 (fun _ => true) blocks) ≠ CheckResult.unknown := by
    intro blocks h
    rw [findBoth] at h
    by_cases h1 : queryPred 1 1 (fun _ => true) blocks asgRoot = true
    · rw [if_pos h1] at h
      exact CheckResult.noConfusion h
    · rw [if_neg h1] at h
      by_cases h2 : queryPred 1 1 (fun _ => true) blocks asgClear = true
      · rw [if_pos h2] at h
        exact CheckResult.noConfusion h
      · rw [if_neg h2] at h
        exact CheckResult.noConfusion h
  have hLc : ∀ s, s ∈ ([[[false]], [[true]]] : List (List (List Bool))) ↔
      ∃ a, (fun _ : Asg => true) a = true ∧ decodeC 1 1 a = s := by
    intro s
    constructor
    · intro hs
      rcases List.mem_cons.mp hs with h1 | h2
      · exact ⟨asgRoot, rfl, by rw [h1]; rfl⟩
      · rw [List.mem_singleton.mp h2]
        exact ⟨asgClear, rfl, rfl⟩
    · rintro ⟨a, -, rfl⟩
      rw [decodeC_one_cell]
      cases hc : a.C 0 0
      · simp
      · simp
  refine ⟨by decide, ?_⟩
  exact c9_enumeration_min 1 1 gridNeg5 (fun _ => true) findBoth 1
    [[[false]], [[true]]] 3 (by decide) hsat huns hunk
    (fun a _ => verify_gridNeg5_ok a) (by decide) hLc (by decide)

end CanalView
